import Mathlib

/-!
Shallow embedding of the real-time fan-out core of the Web-chatting-application
repository: the socket handlers registered inside the
io.on("connection", socket => ...) block of the server source, together with the
event names used by the frontend listeners in SingleChat.js.

State model: each live socket has an id, the set of rooms it has joined
(socket.io room membership, kept per socket), and an outbound FIFO queue of
events the transport drains to the peer.  The handlers below are direct
translations of the source:

  socket.on("setup", userData => { socket.join(userData._id); socket.emit("connected"); })
  socket.on("join chat", roomId => { socket.join(roomId); })
  socket.on("new message", messageData => {
    const chat = messageData.chat;
    chat.users.forEach(user => {
      if (user._id !== messageData.sender._id) {
        socket.to(user._id).emit("message received", messageData);
      }
    });
  })
  socket.on("disconnect", () => { ... })   -- the socket.io runtime removes the
                                              socket and all its memberships

socket.to(room).emit(ev) pushes ev onto the queue of every socket currently in
the room except the emitting socket itself.
-/

namespace WebChat

abbrev SocketId := String
abbrev RoomId := String
abbrev UserId := String

/-- A user object as carried in the socket payloads; only its _id is read. -/
structure UserRef where
  _id : UserId
deriving DecidableEq

/-- The chat object inside a message payload: its persistent id and user list. -/
structure ChatInfo where
  _id : String
  users : List UserRef
deriving DecidableEq

/-- The payload of the "new message" socket event. -/
structure MessageData where
  sender : UserRef
  chat : ChatInfo
  content : String
deriving DecidableEq

/-- Event name the server emits on the real-time delivery path (part_000). -/
def serverMessageEventName : String := "message received"

/-- Event name emitted back to a socket after "setup". -/
def connectedEventName : String := "connected"

/-- Event name the frontend HEAD branch of SingleChat.js listens on. -/
def frontendListenNameHead : String := "message recieved"

/-- Event name the frontend Coding11-12 branch of SingleChat.js listens on. -/
def frontendListenNameMerge : String := "new message"

/-- An event on a socket outbound queue: its wire name and optional payload. -/
structure OutEvent where
  name : String
  payload : Option MessageData
deriving DecidableEq

/-- The event pushed by the "new message" handler for payload m. -/
def msgEvent (m : MessageData) : OutEvent :=
  ⟨serverMessageEventName, some m⟩

/-- Per-socket server state: joined rooms and the outbound event queue. -/
structure SocketState where
  rooms : List RoomId
  queue : List OutEvent
deriving DecidableEq

/-- Whole-server state: the association list of live sockets. -/
structure ServerState where
  sockets : List (SocketId × SocketState)
deriving DecidableEq

def emptyServer : ServerState := ⟨[]⟩

/-- Look up a live socket by id (first matching entry). -/
def getSocket (st : ServerState) (sid : SocketId) : Option SocketState :=
  (st.sockets.find? (fun p => p.1 == sid)).map (·.2)

/-- A connection is registered while its socket is live. -/
def registered (st : ServerState) (sid : SocketId) : Bool :=
  (getSocket st sid).isSome

/-- Rooms the socket has joined; empty when the socket is not live. -/
def roomsOf (st : ServerState) (sid : SocketId) : List RoomId :=
  match getSocket st sid with
  | some s => s.rooms
  | none => []

/-- Outbound queue of the socket; empty when the socket is not live. -/
def getQueue (st : ServerState) (sid : SocketId) : List OutEvent :=
  match getSocket st sid with
  | some s => s.queue
  | none => []

/-- Room membership test, as socket.io keeps it: per-socket room set. -/
def memberOf (st : ServerState) (sid : SocketId) (r : RoomId) : Bool :=
  (roomsOf st sid).contains r

/-- Members of a room: the live sockets whose room set contains it. -/
def membersOf (st : ServerState) (r : RoomId) : List SocketId :=
  (st.sockets.filter (fun p => p.2.rooms.contains r)).map (·.1)

/-- Update the (first) entry of the given socket id, if live. -/
def updateEntries :
    List (SocketId × SocketState) → SocketId → (SocketState → SocketState) →
    List (SocketId × SocketState)
  | [], _, _ => []
  | p :: rest, sid, f =>
      if p.1 == sid then (p.1, f p.2) :: rest else p :: updateEntries rest sid f

def updateSocket (st : ServerState) (sid : SocketId) (f : SocketState → SocketState) :
    ServerState :=
  ⟨updateEntries st.sockets sid f⟩

/-- socket.join(r): room sets are sets, so joining twice adds nothing. -/
def joinRoomList (r : RoomId) (rs : List RoomId) : List RoomId :=
  if rs.contains r then rs else rs ++ [r]

/-- io.on("connection"): a fresh socket becomes live with no rooms, empty queue. -/
def connect (st : ServerState) (sid : SocketId) : ServerState :=
  if registered st sid then st else ⟨st.sockets ++ [(sid, ⟨[], []⟩)]⟩

/-- socket.on("setup"): join the personal room userData._id, emit "connected". -/
def setup (st : ServerState) (sid : SocketId) (userData : UserRef) : ServerState :=
  updateSocket st sid fun s =>
    ⟨joinRoomList userData._id s.rooms, s.queue ++ [⟨connectedEventName, none⟩]⟩

/-- socket.on("join chat"): join the given chat room. -/
def joinChat (st : ServerState) (sid : SocketId) (roomId : RoomId) : ServerState :=
  updateSocket st sid fun s => ⟨joinRoomList roomId s.rooms, s.queue⟩

/-- socket.to(room).emit(ev): push ev to every socket in the room except ex. -/
def emitToRoomExcept (st : ServerState) (room : RoomId) (ex : SocketId)
    (ev : OutEvent) : ServerState :=
  ⟨st.sockets.map fun p =>
    if p.1 != ex && p.2.rooms.contains room then (p.1, ⟨p.2.rooms, p.2.queue ++ [ev]⟩)
    else p⟩

/-- The forEach loop body of the "new message" handler over chat.users. -/
def deliverToUsers (sid : SocketId) (m : MessageData) :
    List UserRef → ServerState → ServerState
  | [], st => st
  | u :: rest, st =>
      deliverToUsers sid m rest
        (if u._id != m.sender._id then emitToRoomExcept st u._id sid (msgEvent m) else st)

/-- socket.on("new message"): fan the message out over chat.users. -/
def newMessage (st : ServerState) (sid : SocketId) (m : MessageData) : ServerState :=
  deliverToUsers sid m m.chat.users st

/-- socket.on("disconnect"): the handler only logs; the socket.io runtime
removes the socket, and with it every room membership it held. -/
def disconnect (st : ServerState) (sid : SocketId) : ServerState :=
  ⟨st.sockets.filter (fun p => p.1 != sid)⟩

/-- Modelled from the spec: the repository implements no leave operation (src
has no socket.leave call); the ConnectionRegistry spec declares
leave(connectionId, roomId), removing roomId from membership, a no-op when not
a member. -/
def leave (st : ServerState) (sid : SocketId) (r : RoomId) : ServerState :=
  updateSocket st sid fun s => ⟨s.rooms.filter (fun x => x != r), s.queue⟩

/-- The users of chat.users whose guard and room membership route one copy of
the message to socket t: non-sender users whose personal room contains t,
with t not the emitting socket. -/
def deliveredUsers (st : ServerState) (sid : SocketId) (m : MessageData)
    (t : SocketId) : List UserRef :=
  m.chat.users.filter fun u =>
    u._id != m.sender._id && (t != sid && memberOf st t u._id)

/-- A join or leave call on a fixed (connection, room) pair. -/
inductive RoomCall where
  | join
  | leave
deriving DecidableEq

def RoomCall.isJoin : RoomCall → Bool
  | RoomCall.join => true
  | RoomCall.leave => false

def applyCall (st : ServerState) (sid : SocketId) (r : RoomId) :
    RoomCall → ServerState
  | RoomCall.join => joinChat st sid r
  | RoomCall.leave => leave st sid r

def applyCalls (st : ServerState) (sid : SocketId) (r : RoomId)
    (cs : List RoomCall) : ServerState :=
  cs.foldl (fun acc c => applyCall acc sid r c) st

/-! ### Basic lemmas about the state operations -/

theorem find?_map_keyed (l : List (SocketId × SocketState))
    (f : SocketId × SocketState → SocketId × SocketState)
    (hkey : ∀ p, (f p).1 = p.1) (t : SocketId) :
    (l.map f).find? (fun p => p.1 == t) = (l.find? (fun p => p.1 == t)).map f := by
  induction l with
  | nil => rfl
  | cons p rest ih =>
      by_cases hpt : p.1 = t
      · have h1 : ((f p).1 == t) = true := by simp [hkey, hpt]
        have h2 : (p.1 == t) = true := by simp [hpt]
        simp [List.find?_cons, h1, h2]
      · have h1 : ((f p).1 == t) = false := by simp [hkey, hpt]
        have h2 : (p.1 == t) = false := by simp [hpt]
        simp [List.find?_cons, h1, h2, ih]

theorem getSocket_none_queue {st : ServerState} {sid : SocketId}
    (h : getSocket st sid = none) : getQueue st sid = [] := by
  simp [getQueue, h]

theorem getSocket_some_queue {st : ServerState} {sid : SocketId} {s : SocketState}
    (h : getSocket st sid = some s) : getQueue st sid = s.queue := by
  simp [getQueue, h]

theorem getSocket_none_rooms {st : ServerState} {sid : SocketId}
    (h : getSocket st sid = none) : roomsOf st sid = [] := by
  simp [roomsOf, h]

theorem getSocket_some_rooms {st : ServerState} {sid : SocketId} {s : SocketState}
    (h : getSocket st sid = some s) : roomsOf st sid = s.rooms := by
  simp [roomsOf, h]

theorem getSocket_emitToRoomExcept (st : ServerState) (room : RoomId) (ex : SocketId)
    (ev : OutEvent) (t : SocketId) :
    getSocket (emitToRoomExcept st room ex ev) t =
      (getSocket st t).map fun s =>
        if t != ex && s.rooms.contains room then ⟨s.rooms, s.queue ++ [ev]⟩ else s := by
  obtain ⟨l⟩ := st
  simp only [getSocket, emitToRoomExcept]
  rw [find?_map_keyed]
  · cases hf : l.find? (fun p => p.1 == t) with
    | none => rfl
    | some p =>
        have hp : p.1 = t := by
          have := List.find?_some hf
          simpa using this
        subst hp
        simp only [Option.map_some']
        cases hc : (p.1 != ex && p.2.rooms.contains room) <;> simp
  · intro p
    cases hc : (p.1 != ex && p.2.rooms.contains room) <;> simp

theorem roomsOf_emitToRoomExcept (st : ServerState) (room : RoomId) (ex : SocketId)
    (ev : OutEvent) (t : SocketId) :
    roomsOf (emitToRoomExcept st room ex ev) t = roomsOf st t := by
  have h := getSocket_emitToRoomExcept st room ex ev t
  cases hgs : getSocket st t with
  | none =>
      rw [hgs, Option.map_none'] at h
      rw [getSocket_none_rooms h, getSocket_none_rooms hgs]
  | some s =>
      rw [hgs, Option.map_some'] at h
      rw [getSocket_some_rooms hgs]
      cases hc : (t != ex && s.rooms.contains room) <;> rw [hc] at h <;> simp at h <;>
        rw [getSocket_some_rooms h]

theorem memberOf_emitToRoomExcept (st : ServerState) (room : RoomId) (ex : SocketId)
    (ev : OutEvent) (t : SocketId) (r : RoomId) :
    memberOf (emitToRoomExcept st room ex ev) t r = memberOf st t r := by
  simp [memberOf, roomsOf_emitToRoomExcept]

theorem getQueue_emitToRoomExcept (st : ServerState) (room : RoomId) (ex : SocketId)
    (ev : OutEvent) (t : SocketId) :
    getQueue (emitToRoomExcept st room ex ev) t =
      getQueue st t ++ (if t != ex && memberOf st t room then [ev] else []) := by
  have h := getSocket_emitToRoomExcept st room ex ev t
  cases hgs : getSocket st t with
  | none =>
      rw [hgs, Option.map_none'] at h
      have hmem : memberOf st t room = false := by
        simp [memberOf, getSocket_none_rooms hgs]
      rw [getSocket_none_queue h, getSocket_none_queue hgs, hmem]
      simp
  | some s =>
      rw [hgs, Option.map_some'] at h
      have hmem : memberOf st t room = s.rooms.contains room := by
        simp [memberOf, getSocket_some_rooms hgs]
      rw [getSocket_some_queue hgs, hmem]
      cases hc : (t != ex && s.rooms.contains room) <;> rw [hc] at h <;> simp at h <;>
        rw [getSocket_some_queue h] <;> simp

theorem memberOf_deliverToUsers (sid : SocketId) (m : MessageData) (users : List UserRef) :
    ∀ (st : ServerState) (t : SocketId) (r : RoomId),
      memberOf (deliverToUsers sid m users st) t r = memberOf st t r := by
  induction users with
  | nil => intro st t r; rfl
  | cons u rest ih =>
      intro st t r
      simp only [deliverToUsers]
      rw [ih]
      by_cases hg : (u._id != m.sender._id) = true
      · rw [if_pos hg, memberOf_emitToRoomExcept]
      · rw [if_neg hg]

theorem memberOf_newMessage (st : ServerState) (sid : SocketId) (m : MessageData)
    (t : SocketId) (r : RoomId) :
    memberOf (newMessage st sid m) t r = memberOf st t r := by
  simp [newMessage, memberOf_deliverToUsers]

theorem getQueue_deliverToUsers (sid : SocketId) (m : MessageData) (t : SocketId) :
    ∀ (users : List UserRef) (st : ServerState),
      getQueue (deliverToUsers sid m users st) t =
        getQueue st t ++
          (users.filter fun u =>
              u._id != m.sender._id && (t != sid && memberOf st t u._id)).map
            (fun _ => msgEvent m) := by
  intro users
  induction users with
  | nil => intro st; simp [deliverToUsers]
  | cons u rest ih =>
      intro st
      simp only [deliverToUsers]
      rw [ih]
      by_cases hg : (u._id != m.sender._id) = true
      · rw [if_pos hg]
        have hpred :
            (rest.filter fun u' =>
                u'._id != m.sender._id &&
                  (t != sid && memberOf (emitToRoomExcept st u._id sid (msgEvent m)) t u'._id)) =
              (rest.filter fun u' =>
                u'._id != m.sender._id && (t != sid && memberOf st t u'._id)) := by
          apply List.filter_congr
          intro x _
          rw [memberOf_emitToRoomExcept]
        rw [hpred, getQueue_emitToRoomExcept, List.filter_cons]
        cases hc : (t != sid && memberOf st t u._id) with
        | true => simp [hg, hc]
        | false => simp [hg, hc]
      · rw [if_neg hg, List.filter_cons]
        have hg' : (u._id != m.sender._id) = false := by
          cases h : (u._id != m.sender._id)
          · rfl
          · exact absurd h hg
        simp [hg']

theorem getQueue_newMessage (st : ServerState) (sid : SocketId) (m : MessageData)
    (t : SocketId) :
    getQueue (newMessage st sid m) t =
      getQueue st t ++ (deliveredUsers st sid m t).map (fun _ => msgEvent m) := by
  simp [newMessage, deliveredUsers, getQueue_deliverToUsers]

theorem deliveredUsers_newMessage (st : ServerState) (sid : SocketId)
    (m0 m : MessageData) (t : SocketId) :
    deliveredUsers (newMessage st sid m0) sid m t = deliveredUsers st sid m t := by
  apply List.filter_congr
  intro x _
  rw [memberOf_newMessage]

theorem find?_updateEntries (l : List (SocketId × SocketState)) (sid : SocketId)
    (f : SocketState → SocketState) (t : SocketId) :
    (updateEntries l sid f).find? (fun p => p.1 == t) =
      if t = sid then (l.find? (fun p => p.1 == t)).map (fun p => (p.1, f p.2))
      else l.find? (fun p => p.1 == t) := by
  induction l with
  | nil => simp [updateEntries]
  | cons p rest ih =>
      by_cases hps : p.1 = sid
      · by_cases hpt : p.1 = t
        · have hts : t = sid := by rw [← hpt, hps]
          simp [updateEntries, hps, hpt, hts, List.find?_cons]
        · have hts : ¬ t = sid := by
            intro h
            exact hpt (by rw [hps, h])
          have hst : ¬ sid = t := fun hh => hts hh.symm
          simp [updateEntries, hps, hpt, hts, hst, List.find?_cons]
      · by_cases hpt : p.1 = t
        · by_cases hts : t = sid
          · exact absurd (by rw [hpt, hts] : p.1 = sid) hps
          · simp [updateEntries, hps, hpt, hts, List.find?_cons]
        · simp [updateEntries, hps, hpt, List.find?_cons, ih]

theorem getSocket_updateSocket (st : ServerState) (sid : SocketId)
    (f : SocketState → SocketState) (t : SocketId) :
    getSocket (updateSocket st sid f) t =
      if t = sid then (getSocket st t).map f else getSocket st t := by
  obtain ⟨l⟩ := st
  simp only [getSocket, updateSocket, find?_updateEntries]
  by_cases hts : t = sid
  · rw [if_pos hts, if_pos hts]
    cases l.find? (fun p => p.1 == t) <;> simp
  · rw [if_neg hts, if_neg hts]

theorem registered_updateSocket (st : ServerState) (sid : SocketId)
    (f : SocketState → SocketState) (t : SocketId) :
    registered (updateSocket st sid f) t = registered st t := by
  simp only [registered, getSocket_updateSocket]
  by_cases hts : t = sid
  · rw [if_pos hts]
    cases getSocket st t <;> simp
  · rw [if_neg hts]

theorem updateEntries_eq_self (l : List (SocketId × SocketState)) (sid : SocketId)
    (f : SocketState → SocketState)
    (h : ∀ p, l.find? (fun q => q.1 == sid) = some p → f p.2 = p.2) :
    updateEntries l sid f = l := by
  induction l with
  | nil => rfl
  | cons p rest ih =>
      obtain ⟨pk, pv⟩ := p
      by_cases hps : pk = sid
      · have hfix := h (pk, pv) (by simp [List.find?_cons, hps])
        simp [updateEntries, hps, hfix]
      · simp only [updateEntries]
        rw [if_neg (by simp [hps])]
        rw [ih (fun q hq => h q (by simp [List.find?_cons, hps, hq]))]

theorem updateSocket_eq_self (st : ServerState) (sid : SocketId)
    (f : SocketState → SocketState)
    (h : ∀ s, getSocket st sid = some s → f s = s) :
    updateSocket st sid f = st := by
  obtain ⟨l⟩ := st
  simp only [updateSocket, ServerState.mk.injEq]
  apply updateEntries_eq_self
  intro p hp
  exact h p.2 (by simp [getSocket, hp])

theorem contains_joinRoomList (r : RoomId) (rs : List RoomId) :
    (joinRoomList r rs).contains r = true := by
  unfold joinRoomList
  by_cases h : rs.contains r = true
  · rw [if_pos h]
    exact h
  · rw [if_neg h]
    simp

theorem joinRoomList_idem (r : RoomId) (rs : List RoomId) :
    joinRoomList r (joinRoomList r rs) = joinRoomList r rs := by
  have h := contains_joinRoomList r rs
  generalize hX : joinRoomList r rs = X at h ⊢
  unfold joinRoomList
  rw [if_pos h]

theorem memberOf_joinChat_self (st : ServerState) (sid : SocketId) (r : RoomId)
    (h : registered st sid = true) :
    memberOf (joinChat st sid r) sid r = true := by
  obtain ⟨s, hs⟩ : ∃ s, getSocket st sid = some s := by
    cases hgs : getSocket st sid with
    | none =>
        rw [registered, hgs] at h
        simp at h
    | some s => exact ⟨s, rfl⟩
  have h2 : getSocket (joinChat st sid r) sid = some ⟨joinRoomList r s.rooms, s.queue⟩ := by
    rw [joinChat, getSocket_updateSocket, if_pos rfl, hs, Option.map_some']
  rw [memberOf, getSocket_some_rooms h2]
  exact contains_joinRoomList r s.rooms

theorem memberOf_leave_self (st : ServerState) (sid : SocketId) (r : RoomId) :
    memberOf (leave st sid r) sid r = false := by
  cases hgs : getSocket st sid with
  | none =>
      have h2 : getSocket (leave st sid r) sid = none := by
        rw [leave, getSocket_updateSocket, if_pos rfl, hgs, Option.map_none']
      rw [memberOf, getSocket_none_rooms h2]
      rfl
  | some s =>
      have h2 : getSocket (leave st sid r) sid =
          some ⟨s.rooms.filter (fun x => x != r), s.queue⟩ := by
        rw [leave, getSocket_updateSocket, if_pos rfl, hgs, Option.map_some']
      rw [memberOf, getSocket_some_rooms h2]
      simp

theorem registered_applyCall (st : ServerState) (sid : SocketId) (r : RoomId)
    (c : RoomCall) (t : SocketId) :
    registered (applyCall st sid r c) t = registered st t := by
  cases c <;> simp [applyCall, joinChat, leave, registered_updateSocket]

theorem registered_applyCalls (sid : SocketId) (r : RoomId) (cs : List RoomCall) :
    ∀ (st : ServerState) (t : SocketId),
      registered (applyCalls st sid r cs) t = registered st t := by
  induction cs with
  | nil =>
      intro st t
      rfl
  | cons c rest ih =>
      intro st t
      simp only [applyCalls, List.foldl_cons]
      have hr := ih (applyCall st sid r c) t
      simp only [applyCalls] at hr
      rw [hr, registered_applyCall]

theorem updateEntries_updateEntries (l : List (SocketId × SocketState)) (sid : SocketId)
    (f g : SocketState → SocketState) :
    updateEntries (updateEntries l sid f) sid g = updateEntries l sid (fun s => g (f s)) := by
  induction l with
  | nil => rfl
  | cons p rest ih =>
      obtain ⟨pk, pv⟩ := p
      by_cases hps : pk = sid
      · simp [updateEntries, hps]
      · simp [updateEntries, hps, ih]

theorem updateEntries_congr (l : List (SocketId × SocketState)) (sid : SocketId)
    (f g : SocketState → SocketState) (h : ∀ s, f s = g s) :
    updateEntries l sid f = updateEntries l sid g := by
  induction l with
  | nil => rfl
  | cons p rest ih =>
      by_cases hps : p.1 = sid <;> simp [updateEntries, hps, h, ih]

theorem joinChat_idem (st : ServerState) (sid : SocketId) (r : RoomId) :
    joinChat (joinChat st sid r) sid r = joinChat st sid r := by
  obtain ⟨l⟩ := st
  simp only [joinChat, updateSocket, ServerState.mk.injEq]
  rw [updateEntries_updateEntries]
  apply updateEntries_congr
  intro s
  simp [joinRoomList_idem]

theorem leave_not_member (st : ServerState) (sid : SocketId) (r : RoomId)
    (h : memberOf st sid r = false) :
    leave st sid r = st := by
  apply updateSocket_eq_self
  intro s hs
  obtain ⟨rs, qs⟩ := s
  rw [memberOf, getSocket_some_rooms hs] at h
  have hfil : rs.filter (fun x => x != r) = rs := by
    rw [List.filter_eq_self]
    intro x hx
    have hxr : x ≠ r := by
      intro he
      subst he
      have hel := List.elem_eq_true_of_mem hx
      simp only [List.contains] at h
      rw [hel] at h
      exact Bool.noConfusion h
    simpa using hxr
  simp [hfil]

theorem map_eq_self_of (l : List (SocketId × SocketState))
    (f : SocketId × SocketState → SocketId × SocketState)
    (h : ∀ p ∈ l, f p = p) : l.map f = l := by
  induction l with
  | nil => rfl
  | cons p rest ih =>
      rw [List.map_cons, h p (by simp), ih (fun q hq => h q (by simp [hq]))]

theorem emitToRoomExcept_eq_self (st : ServerState) (room : RoomId) (ex : SocketId)
    (ev : OutEvent)
    (h : ∀ p ∈ st.sockets, p.1 = ex ∨ p.2.rooms.contains room = false) :
    emitToRoomExcept st room ex ev = st := by
  obtain ⟨l⟩ := st
  simp only [emitToRoomExcept, ServerState.mk.injEq]
  apply map_eq_self_of
  intro p hp
  rcases h p hp with h1 | h1
  · simp [h1]
  · simp at h1
    simp [h1]

theorem memberOf_setup_self (st : ServerState) (sid : SocketId) (u : UserRef) :
    memberOf (setup st sid u) sid u._id = registered st sid := by
  cases hgs : getSocket st sid with
  | none =>
      have h2 : getSocket (setup st sid u) sid = none := by
        rw [setup, getSocket_updateSocket, if_pos rfl, hgs, Option.map_none']
      rw [memberOf, getSocket_none_rooms h2, registered, hgs]
      rfl
  | some s =>
      have h2 : getSocket (setup st sid u) sid =
          some ⟨joinRoomList u._id s.rooms, s.queue ++ [⟨connectedEventName, none⟩]⟩ := by
        rw [setup, getSocket_updateSocket, if_pos rfl, hgs, Option.map_some']
      rw [memberOf, getSocket_some_rooms h2, registered, hgs]
      rw [contains_joinRoomList]
      rfl

/-! ### Claim theorems -/

/-- C1: broadcast to a room never delivers to the excluded connection, even
when it is the only member: the socket.to(room).emit primitive leaves the
queue of the excluded socket unchanged in every state, and the "new message"
handler leaves the queue of the emitting sender unchanged. -/
theorem broadcast_never_delivers_to_excluded (st : ServerState) (room : RoomId)
    (ex : SocketId) (ev : OutEvent) (sid : SocketId) (m : MessageData) :
    getQueue (emitToRoomExcept st room ex ev) ex = getQueue st ex
    ∧ getQueue (newMessage st sid m) sid = getQueue st sid := by
  constructor
  · rw [getQueue_emitToRoomExcept]
    simp
  · rw [getQueue_newMessage]
    have hempty : deliveredUsers st sid m sid = [] := by
      rw [deliveredUsers, List.filter_eq_nil_iff]
      intro u _
      simp
    rw [hempty]
    simp

/-- C2: the event name emitted by the server "new message" handler differs
from both event names the frontend listens on for incoming chat messages
(the misspelled "message recieved" of one branch and "new message" of the
other), and the handler only ever enqueues events carrying the server-side
name, so neither frontend handler is triggered by the server emission. -/
theorem event_name_mismatch :
    serverMessageEventName ≠ frontendListenNameHead
    ∧ serverMessageEventName ≠ frontendListenNameMerge
    ∧ ∀ m : MessageData, (msgEvent m).name = serverMessageEventName :=
  ⟨by decide, by decide, fun _ => rfl⟩

/-- C4: after disconnect, the connection is gone from the membership of every room
and is no longer registered: no stale membership survives the removal. -/
theorem disconnect_no_stale_membership (st : ServerState) (sid : SocketId) (r : RoomId) :
    (membersOf (disconnect st sid) r).contains sid = false
    ∧ registered (disconnect st sid) sid = false := by
  obtain ⟨l⟩ := st
  constructor
  · simp only [membersOf, disconnect]
    rw [← Bool.not_eq_true]
    intro hc
    have hmem := List.mem_of_elem_eq_true hc
    simp only [List.mem_map, List.mem_filter] at hmem
    obtain ⟨p, ⟨⟨hpl, hne⟩, hroom⟩, hkey⟩ := hmem
    rw [hkey] at hne
    simp at hne
  · simp only [registered, disconnect, getSocket]
    rw [List.find?_eq_none.mpr]
    · rfl
    · intro p hp
      have hne := (List.mem_filter.mp hp).2
      simp at hne ⊢
      exact hne

/-- C6 counterexample: calling join with an unregistered connectionId does not
fail: the code has no UnknownConnection error (nor any error path); the call
leaves the state unchanged. -/
theorem join_unregistered_counterexample :
    registered emptyServer "c1" = false
    ∧ joinChat emptyServer "c1" "room1" = emptyServer := by
  exact ⟨rfl, rfl⟩

/-- C6 amended: join on a connection that was never registered or has been
unregistered is a silent no-op: the state is returned unchanged and no error
is raised (the handlers define no error taxonomy at all). -/
theorem join_unregistered_noop (st : ServerState) (sid : SocketId) (r : RoomId)
    (h : registered st sid = false) :
    joinChat st sid r = st := by
  apply updateSocket_eq_self
  intro s hs
  rw [registered, hs] at h
  simp at h

/-- C6 amended, witness: the no-op holds at the concrete unregistered id. -/
theorem join_unregistered_noop_witness :
    registered emptyServer "c9" = false
    ∧ joinChat emptyServer "c9" "room9" = emptyServer :=
  ⟨by decide, join_unregistered_noop emptyServer "c9" "room9" (by decide)⟩

def c7State : ServerState := setup (connect (connect emptyServer "A") "B") "B" ⟨"u2"⟩

def c7Msg : MessageData := ⟨⟨"u1"⟩, ⟨"chat1", [⟨"u1"⟩, ⟨"u2"⟩]⟩, "hi"⟩

/-- C7 counterexample: a sender connection with no identity bound (socket "A"
never did setup: it is in no room) still triggers full delivery of its
message to the set-up recipient "B": no Unauthorized failure occurs and the
delivery is performed, contradicting the claim. -/
theorem send_unauthenticated_counterexample :
    roomsOf c7State "A" = []
    ∧ getQueue (newMessage c7State "A" c7Msg) "B" =
        getQueue c7State "B" ++ [msgEvent c7Msg] := by
  exact ⟨by decide, by decide⟩

/-- C7 amended: the "new message" handler performs no authentication check:
even when the sender connection has bound no identity (it has joined no room,
having never done setup), delivery proceeds exactly as the membership rule
dictates; the code defines no Unauthorized error. -/
theorem send_without_auth_delivers (st : ServerState) (sid : SocketId)
    (m : MessageData) (t : SocketId) (h : roomsOf st sid = []) :
    getQueue (newMessage st sid m) t =
      getQueue st t ++ (deliveredUsers st sid m t).map (fun _ => msgEvent m) :=
  getQueue_newMessage st sid m t

/-- C7 amended, witness: the unauthenticated sender "A" delivers to "B". -/
theorem send_without_auth_delivers_witness :
    roomsOf c7State "A" = []
    ∧ getQueue (newMessage c7State "A" c7Msg) "B" =
        getQueue c7State "B" ++
          (deliveredUsers c7State "A" c7Msg "B").map (fun _ => msgEvent c7Msg) :=
  ⟨by decide, send_without_auth_delivers c7State "A" c7Msg "B" (by decide)⟩

def c3State : ServerState :=
  joinChat (joinChat (joinChat (connect (connect (connect emptyServer "A") "B") "C")
    "A" "R") "B" "R") "C" "R"

def c3Msg : MessageData := ⟨⟨"u1"⟩, ⟨"R", [⟨"u1"⟩, ⟨"u2"⟩, ⟨"u3"⟩]⟩, "hi"⟩

/-- C3 counterexample: connections A, B, C are all joined to room R via
"join chat", yet a message sent from A for that chat delivers nothing to B or
C: room-R membership plays no role in delivery, refuting "exactly one copy
onto the outbound queues of B and C". -/
theorem send_room_members_counterexample :
    memberOf c3State "A" "R" = true
    ∧ memberOf c3State "B" "R" = true
    ∧ memberOf c3State "C" "R" = true
    ∧ getQueue (newMessage c3State "A" c3Msg) "B" = []
    ∧ getQueue (newMessage c3State "A" c3Msg) "C" = [] := by
  exact ⟨by decide, by decide, by decide, by decide, by decide⟩

/-- C3 amended: delivery is routed through the personal rooms of the users in
the chat of the message, not through the chat room: when B sits in the personal
room of non-sender user uB (and not that of uC), C sits in that of uC (not uB),
and B, C are distinct from the sender connection A, a single send from A
enqueues exactly one copy at B and one at C, and none at A. -/
theorem send_delivers_once_per_set_up_member (st : ServerState)
    (a b c : SocketId) (ua ub uc : UserId) (cid content : String)
    (hba : b ≠ a) (hca : c ≠ a)
    (hub : ub ≠ ua) (huc : uc ≠ ua)
    (hbb : memberOf st b ub = true) (hbc : memberOf st b uc = false)
    (hcc : memberOf st c uc = true) (hcb : memberOf st c ub = false) :
    getQueue (newMessage st a ⟨⟨ua⟩, ⟨cid, [⟨ua⟩, ⟨ub⟩, ⟨uc⟩]⟩, content⟩) b =
        getQueue st b ++ [msgEvent ⟨⟨ua⟩, ⟨cid, [⟨ua⟩, ⟨ub⟩, ⟨uc⟩]⟩, content⟩]
    ∧ getQueue (newMessage st a ⟨⟨ua⟩, ⟨cid, [⟨ua⟩, ⟨ub⟩, ⟨uc⟩]⟩, content⟩) c =
        getQueue st c ++ [msgEvent ⟨⟨ua⟩, ⟨cid, [⟨ua⟩, ⟨ub⟩, ⟨uc⟩]⟩, content⟩]
    ∧ getQueue (newMessage st a ⟨⟨ua⟩, ⟨cid, [⟨ua⟩, ⟨ub⟩, ⟨uc⟩]⟩, content⟩) a =
        getQueue st a := by
  have hbneA : (b != a) = true := by simp [hba]
  have hcneA : (c != a) = true := by simp [hca]
  have hubne : (ub != ua) = true := by simp [hub]
  have hucne : (uc != ua) = true := by simp [huc]
  refine ⟨?_, ?_, ?_⟩
  · rw [getQueue_newMessage]
    have hd : deliveredUsers st a ⟨⟨ua⟩, ⟨cid, [⟨ua⟩, ⟨ub⟩, ⟨uc⟩]⟩, content⟩ b
        = [⟨ub⟩] := by
      simp [deliveredUsers, List.filter_cons, hubne, hucne, hbneA, hbb, hbc]
    rw [hd]
    rfl
  · rw [getQueue_newMessage]
    have hd : deliveredUsers st a ⟨⟨ua⟩, ⟨cid, [⟨ua⟩, ⟨ub⟩, ⟨uc⟩]⟩, content⟩ c
        = [⟨uc⟩] := by
      simp [deliveredUsers, List.filter_cons, hubne, hucne, hcneA, hcc, hcb]
    rw [hd]
    rfl
  · rw [getQueue_newMessage]
    have hd : deliveredUsers st a ⟨⟨ua⟩, ⟨cid, [⟨ua⟩, ⟨ub⟩, ⟨uc⟩]⟩, content⟩ a
        = [] := by
      rw [deliveredUsers, List.filter_eq_nil_iff]
      intro u _
      simp
    rw [hd]
    simp

def c3GoodState : ServerState :=
  setup (setup (connect (connect (connect emptyServer "A") "B") "C") "B" ⟨"u2"⟩) "C" ⟨"u3"⟩

/-- C3 amended, witness: in the concrete three-connection state where B and C
have set up as u2 and u3, a send from A delivers once to each of B and C and
never to A. -/
theorem send_delivers_once_per_set_up_member_witness :
    ("B" : SocketId) ≠ "A" ∧ ("C" : SocketId) ≠ "A"
    ∧ ("u2" : UserId) ≠ "u1" ∧ ("u3" : UserId) ≠ "u1"
    ∧ memberOf c3GoodState "B" "u2" = true ∧ memberOf c3GoodState "B" "u3" = false
    ∧ memberOf c3GoodState "C" "u3" = true ∧ memberOf c3GoodState "C" "u2" = false
    ∧ (getQueue (newMessage c3GoodState "A" ⟨⟨"u1"⟩, ⟨"R", [⟨"u1"⟩, ⟨"u2"⟩, ⟨"u3"⟩]⟩, "hi"⟩) "B" =
          getQueue c3GoodState "B" ++ [msgEvent ⟨⟨"u1"⟩, ⟨"R", [⟨"u1"⟩, ⟨"u2"⟩, ⟨"u3"⟩]⟩, "hi"⟩]
        ∧ getQueue (newMessage c3GoodState "A" ⟨⟨"u1"⟩, ⟨"R", [⟨"u1"⟩, ⟨"u2"⟩, ⟨"u3"⟩]⟩, "hi"⟩) "C" =
          getQueue c3GoodState "C" ++ [msgEvent ⟨⟨"u1"⟩, ⟨"R", [⟨"u1"⟩, ⟨"u2"⟩, ⟨"u3"⟩]⟩, "hi"⟩]
        ∧ getQueue (newMessage c3GoodState "A" ⟨⟨"u1"⟩, ⟨"R", [⟨"u1"⟩, ⟨"u2"⟩, ⟨"u3"⟩]⟩, "hi"⟩) "A" =
          getQueue c3GoodState "A") :=
  ⟨by decide, by decide, by decide, by decide, by decide, by decide, by decide, by decide,
    send_delivers_once_per_set_up_member c3GoodState "A" "B" "C" "u1" "u2" "u3" "R" "hi"
      (by decide) (by decide) (by decide) (by decide)
      (by decide) (by decide) (by decide) (by decide)⟩

/-- C5: for a registered connection and any sequence of join and leave calls
on the same (connection, room) pair, the final membership is decided by the
kind of the last call alone (member exactly when it is a join); join is
idempotent, and leave when not a member changes nothing. -/
theorem join_leave_last_call_decides (st : ServerState) (sid : SocketId) (r : RoomId)
    (cs : List RoomCall) (c : RoomCall) (h : registered st sid = true) :
    memberOf (applyCalls st sid r (cs ++ [c])) sid r = c.isJoin
    ∧ joinChat (joinChat st sid r) sid r = joinChat st sid r
    ∧ (memberOf st sid r = false → leave st sid r = st) := by
  refine ⟨?_, joinChat_idem st sid r, leave_not_member st sid r⟩
  have hreg : registered (applyCalls st sid r cs) sid = true := by
    rw [registered_applyCalls]
    exact h
  have hsplit : applyCalls st sid r (cs ++ [c]) =
      applyCall (applyCalls st sid r cs) sid r c := by
    simp [applyCalls, List.foldl_append]
  rw [hsplit]
  cases c with
  | join => exact memberOf_joinChat_self _ _ _ hreg
  | leave => exact memberOf_leave_self _ _ _

/-- C5 witness: the last-call rule, join idempotence and safe leave hold at a
concrete registered connection and call sequence. -/
theorem join_leave_last_call_decides_witness :
    registered (connect emptyServer "A") "A" = true
    ∧ (memberOf (applyCalls (connect emptyServer "A") "A" "room1"
          ([RoomCall.join, RoomCall.leave] ++ [RoomCall.join])) "A" "room1" =
            RoomCall.isJoin RoomCall.join
        ∧ joinChat (joinChat (connect emptyServer "A") "A" "room1") "A" "room1" =
            joinChat (connect emptyServer "A") "A" "room1"
        ∧ (memberOf (connect emptyServer "A") "A" "room1" = false →
            leave (connect emptyServer "A") "A" "room1" = connect emptyServer "A")) :=
  ⟨by decide,
    join_leave_last_call_decides (connect emptyServer "A") "A" "room1"
      [RoomCall.join, RoomCall.leave] RoomCall.join (by decide)⟩

/-- C8: a broadcast that reaches no eligible member is not an error: the
"new message" handler is a total function and, when no non-sender user of the
chat has any member in their personal room other than possibly the sender,
it returns the state entirely unchanged — nothing is delivered and nothing
else changes. -/
theorem broadcast_zero_members_noop (st : ServerState) (sid : SocketId)
    (m : MessageData)
    (h : ∀ u ∈ m.chat.users, ∀ p ∈ st.sockets,
        p.1 = sid ∨ p.2.rooms.contains u._id = false) :
    newMessage st sid m = st := by
  rw [newMessage]
  have hgen : ∀ users : List UserRef,
      (∀ u ∈ users, ∀ p ∈ st.sockets, p.1 = sid ∨ p.2.rooms.contains u._id = false) →
      deliverToUsers sid m users st = st := by
    intro users
    induction users with
    | nil =>
        intro _
        rfl
    | cons u rest ih =>
        intro hh
        simp only [deliverToUsers]
        have hst1 : (if u._id != m.sender._id then
            emitToRoomExcept st u._id sid (msgEvent m) else st) = st := by
          split
          · exact emitToRoomExcept_eq_self st u._id sid (msgEvent m) (hh u (by simp))
          · rfl
        rw [hst1]
        exact ih (fun v hv => hh v (by simp [hv]))
  exact hgen m.chat.users h

/-- C8 witness: broadcasting into a constellation where no personal room of a
non-sender chat user has a member leaves the concrete state unchanged. -/
theorem broadcast_zero_members_noop_witness :
    (∀ u ∈ (⟨⟨"u1"⟩, ⟨"chat1", [⟨"u1"⟩, ⟨"u2"⟩]⟩, "x"⟩ : MessageData).chat.users,
        ∀ p ∈ (connect emptyServer "A").sockets,
          p.1 = "A" ∨ p.2.rooms.contains u._id = false)
    ∧ newMessage (connect emptyServer "A") "A" ⟨⟨"u1"⟩, ⟨"chat1", [⟨"u1"⟩, ⟨"u2"⟩]⟩, "x"⟩ =
        connect emptyServer "A" :=
  ⟨by decide,
    broadcast_zero_members_noop (connect emptyServer "A") "A"
      ⟨⟨"u1"⟩, ⟨"chat1", [⟨"u1"⟩, ⟨"u2"⟩]⟩, "x"⟩ (by decide)⟩

/-- C9: FIFO per room per producer: when the same sender broadcasts m1 and
then m2 and socket t receives both, the final queue of t holds a copy of the m1
event at a strictly earlier position than a copy of the m2 event. -/
theorem broadcast_order_fifo (st : ServerState) (sid : SocketId)
    (m1 m2 : MessageData) (t : SocketId)
    (h1 : deliveredUsers st sid m1 t ≠ [])
    (h2 : deliveredUsers st sid m2 t ≠ []) :
    ∃ i j, i < j
      ∧ (getQueue (newMessage (newMessage st sid m1) sid m2) t).get? i =
          some (msgEvent m1)
      ∧ (getQueue (newMessage (newMessage st sid m1) sid m2) t).get? j =
          some (msgEvent m2) := by
  have e1 := getQueue_newMessage st sid m1 t
  have e2 := getQueue_newMessage (newMessage st sid m1) sid m2 t
  have e3 := deliveredUsers_newMessage st sid m1 m2 t
  rw [e3, e1] at e2
  obtain ⟨v1, l1, hl1⟩ := List.exists_cons_of_ne_nil h1
  obtain ⟨v2, l2, hl2⟩ := List.exists_cons_of_ne_nil h2
  refine ⟨(getQueue st t).length,
    (getQueue st t).length + (deliveredUsers st sid m1 t).length, ?_, ?_, ?_⟩
  · have hpos : 0 < (deliveredUsers st sid m1 t).length := by
      rw [hl1]
      simp
    omega
  · rw [e2, List.append_assoc, List.get?_append_right (Nat.le_refl _)]
    rw [Nat.sub_self, hl1, List.map_cons]
    rfl
  · have hlen : ((getQueue st t) ++
        (deliveredUsers st sid m1 t).map (fun _ => msgEvent m1)).length
        = (getQueue st t).length + (deliveredUsers st sid m1 t).length := by
      simp
    rw [e2, List.get?_append_right (le_of_eq hlen)]
    rw [hlen, Nat.sub_self, hl2, List.map_cons]
    rfl

def c9State : ServerState := setup (connect (connect emptyServer "A") "B") "B" ⟨"u2"⟩

def c9Msg1 : MessageData := ⟨⟨"u1"⟩, ⟨"chat1", [⟨"u1"⟩, ⟨"u2"⟩]⟩, "first"⟩

def c9Msg2 : MessageData := ⟨⟨"u1"⟩, ⟨"chat1", [⟨"u1"⟩, ⟨"u2"⟩]⟩, "second"⟩

/-- C9 witness: in the concrete two-connection state, receiver "B" gets the
two broadcasts of sender "A" in issue order. -/
theorem broadcast_order_fifo_witness :
    deliveredUsers c9State "A" c9Msg1 "B" ≠ []
    ∧ deliveredUsers c9State "A" c9Msg2 "B" ≠ []
    ∧ ∃ i j, i < j
        ∧ (getQueue (newMessage (newMessage c9State "A" c9Msg1) "A" c9Msg2) "B").get? i =
            some (msgEvent c9Msg1)
        ∧ (getQueue (newMessage (newMessage c9State "A" c9Msg1) "A" c9Msg2) "B").get? j =
            some (msgEvent c9Msg2) :=
  ⟨by decide, by decide,
    broadcast_order_fifo c9State "A" c9Msg1 c9Msg2 "B" (by decide) (by decide)⟩

/-- C10: delivery targets the personal identity room of each recipient, not the
chat room: setup joins the personal room named by the user _id exactly when
the socket is live, and after "new message" the queue of every socket t has grown
by exactly one copy of the message event per non-sender user u of chat.users
whose personal room u._id contains t (t distinct from the sender socket) —
membership of the chat room joined via "join chat" does not enter the rule. -/
theorem delivery_targets_personal_rooms (st : ServerState) (sid : SocketId)
    (m : MessageData) (t : SocketId) (st2 : ServerState) (sid2 : SocketId)
    (u : UserRef) :
    getQueue (newMessage st sid m) t =
      getQueue st t ++ (deliveredUsers st sid m t).map (fun _ => msgEvent m)
    ∧ memberOf (setup st2 sid2 u) sid2 u._id = registered st2 sid2 :=
  ⟨getQueue_newMessage st sid m t, memberOf_setup_self st2 sid2 u⟩

end WebChat
